import Mathlib

/-!
Verification of `pump_fun_mc.py` (PumpFunMarketCap): a shallow embedding of
the bonding-curve record decoder, the address derivations, and the
market-cap orchestration, together with proofs of the spec's claims.

Byte buffers are modelled as `List Nat` (each entry one byte), the Python
float arithmetic is modelled over the exact rationals `ℚ` (the spec allows
double "or higher" precision), and the two injected collaborators
(account reader, quote reader) together with the outcome of the pure
derivation step are modelled as oracles in a `Collab` record.  Failure is
modelled with `Option`/`Except`, matching the Python code where every
exception inside `_derive_bonding_curve_accounts` / `_get_virtual_reserves`
is swallowed to `None` and `get_market_cap` raises `ValueError` when the
bonding-curve data is absent.
-/

namespace PumpFunMC

/-- Bytes of an ASCII string, as construct/solders see Python `bytes`. -/
def strBytes (s : String) : List Nat := s.toList.map Char.toNat

/-- The base58 alphabet used by Solana-style identifiers. -/
def base58Alphabet : List Char :=
  ("123456789ABCDEFGHJKLMNPQRSTUVWXYZabcdefghijkmnopqrstuvwxyz").toList

/-- Value of a single base58 digit. -/
def base58CharVal (c : Char) : Nat := base58Alphabet.indexOf c

/-- Numeric value of a base58 string. -/
def base58ToNat (s : String) : Nat :=
  s.toList.foldl (fun acc c => acc * 58 + base58CharVal c) 0

/-- Big-endian byte expansion of a natural number into a fixed width. -/
def natToBytesBE : Nat → Nat → List Nat
  | _, 0 => []
  | n, len + 1 => natToBytesBE (n / 256) len ++ [n % 256]

/-- Decode a base58 string into a 32-byte identifier (no leading-one bytes
in the constants used here, so fixed-width conversion is exact). -/
def base58Decode32 (s : String) : List Nat := natToBytesBE (base58ToNat s) 32

/-- The fixed pump.fun program identifier from the source
(`6EF8rrecthR5Dkzon8Nwu78hRvfCKubJ14M5uBEwF6P`). -/
def PGM_ID : List Nat := base58Decode32 ("6EF8rrecthR5Dkzon8Nwu78hRvfCKubJ14M5uBEwF6P")

/-- Little-endian unsigned 64-bit read at a byte offset, as construct's
`Int64ul` fields do once the buffer is long enough. -/
def readU64le (b : List Nat) (off : Nat) : Nat :=
  b.getD off 0
  + b.getD (off + 1) 0 * 256
  + b.getD (off + 2) 0 * 256 ^ 2
  + b.getD (off + 3) 0 * 256 ^ 3
  + b.getD (off + 4) 0 * 256 ^ 4
  + b.getD (off + 5) 0 * 256 ^ 5
  + b.getD (off + 6) 0 * 256 ^ 6
  + b.getD (off + 7) 0 * 256 ^ 7

/-- The decoded bonding-curve account record, fields as in `_curve_layout`. -/
structure CurveRecord where
  virtualTokenReserves : Nat
  virtualSolReserves : Nat
  realTokenReserves : Nat
  realSolReserves : Nat
  tokenTotalSupply : Nat
  complete : Bool
  creator : List Nat
deriving Repr, DecidableEq

/-- The `_curve_layout.parse` of the source: skip an 8-byte padding, read
five little-endian u64 fields, one flag byte (construct's `Flag` decodes
any non-zero byte as true), and 32 creator bytes.  construct raises a
stream error when fewer than 81 bytes are available (all-or-nothing) and
ignores trailing bytes; the failure is modelled as `none`. -/
def curve_layout_parse (b : List Nat) : Option CurveRecord :=
  if b.length < 81 then none
  else some
    { virtualTokenReserves := readU64le b 8
      virtualSolReserves := readU64le b 16
      realTokenReserves := readU64le b 24
      realSolReserves := readU64le b 32
      tokenTotalSupply := readU64le b 40
      complete := b.getD 48 0 != 0
      creator := (b.drop 49).take 32 }

/-- The aggregate data built by `_get_bonding_curve_data`. -/
structure BondingCurveData where
  mint : List Nat
  bonding_curve : List Nat
  associated_bonding_curve : List Nat
  virtual_token_reserves : Nat
  virtual_sol_reserves : Nat
  token_total_supply : Nat
  complete : Bool
  creator : List Nat
deriving Repr, DecidableEq

/-- The result record of `get_market_cap`, with the Python float arithmetic
modelled over exact rationals. -/
structure MarketCapData where
  token_price_sol : ℚ
  token_price_usd : ℚ
  market_cap_usd : ℚ
deriving Repr, DecidableEq

/-- The Python exceptions that can escape `get_market_cap`:
`valueError` is the single untagged `ValueError` raised whenever
`_get_bonding_curve_data` returns `None` (derivation failure, fetch
failure or decode failure alike); `quoteError` is any exception escaping
`_get_sol_price_usd`; `zeroDivisionError` is the `ZeroDivisionError`
(a subclass of Python's `ArithmeticError`) from dividing by a zero token
reserve. -/
inductive MCError where
  | valueError
  | quoteError
  | zeroDivisionError
deriving Repr, DecidableEq

/-- Observable steps of one `get_market_cap` run, used to state which
collaborators and internal stages were invoked and in which order. -/
inductive Event where
  | deriveEv
  | fetchEv
  | decodeEv
  | quoteEv
deriving Repr, DecidableEq

/-- Oracles for one run: the outcome of the address-derivation step
(`None` models the caught-exception path of
`_derive_bonding_curve_accounts`), the account-reader's raw bytes for the
curve account (`none` models an absent or unreadable account), and the
quote-reader's fiat price (`none` models a transport or parse failure). -/
structure Collab where
  deriveResult : Option (List Nat × List Nat)
  fetchResult : Option (List Nat)
  quoteResult : Option ℚ

/-- The `_get_virtual_reserves` of the source: fetch the account bytes and
parse them, with any exception (absent account or parse failure) swallowed
into `None`. -/
def get_virtual_reserves (fetchResult : Option (List Nat)) : Option CurveRecord :=
  match fetchResult with
  | none => none
  | some data => curve_layout_parse data

/-- The `_get_bonding_curve_data` of the source, instrumented with the
trace of stages actually reached: derivation first, then the account
fetch, then the decode; each later stage runs only if the earlier ones
produced a value. -/
def get_bonding_curve_data (mint : List Nat) (c : Collab) :
    Option BondingCurveData × List Event :=
  match c.deriveResult with
  | none => (none, [Event.deriveEv])
  | some (bc, atoken) =>
    match c.fetchResult with
    | none => (none, [Event.deriveEv, Event.fetchEv])
    | some data =>
      match curve_layout_parse data with
      | none => (none, [Event.deriveEv, Event.fetchEv, Event.decodeEv])
      | some vr =>
        (some
          { mint := mint
            bonding_curve := bc
            associated_bonding_curve := atoken
            virtual_token_reserves := vr.virtualTokenReserves
            virtual_sol_reserves := vr.virtualSolReserves
            token_total_supply := vr.tokenTotalSupply
            complete := vr.complete
            creator := vr.creator },
          [Event.deriveEv, Event.fetchEv, Event.decodeEv])

/-- The `get_market_cap` of the source: build the bonding-curve data
(raising `ValueError` when it is `None`), fetch the fiat quote, then
compute `sol_reserve = virtual_sol_reserves / 10^9`,
`token_reserve = virtual_token_reserves / 10^token_decimals`,
`token_price_sol = sol_reserve / token_reserve`,
`token_price_usd = token_price_sol * sol_usd`,
`market_cap_usd = token_price_usd * total_supply`; dividing by a zero
token reserve raises `ZeroDivisionError`. -/
def get_market_cap (mint : List Nat) (c : Collab)
    (total_supply : Nat) (token_decimals : Nat) :
    Except MCError MarketCapData × List Event :=
  match get_bonding_curve_data mint c with
  | (none, tr) => (Except.error MCError.valueError, tr)
  | (some bc_data, tr) =>
    match c.quoteResult with
    | none => (Except.error MCError.quoteError, tr ++ [Event.quoteEv])
    | some sol_usd =>
      let sol_reserve : ℚ := (bc_data.virtual_sol_reserves : ℚ) / 10 ^ 9
      let token_reserve : ℚ := (bc_data.virtual_token_reserves : ℚ) / 10 ^ token_decimals
      if token_reserve = 0 then
        (Except.error MCError.zeroDivisionError, tr ++ [Event.quoteEv])
      else
        (Except.ok
          { token_price_sol := sol_reserve / token_reserve
            token_price_usd := sol_reserve / token_reserve * sol_usd
            market_cap_usd := sol_reserve / token_reserve * sol_usd * (total_supply : ℚ) },
          tr ++ [Event.quoteEv])

/-- ASCII bytes of the marker appended by the program-derived-address hash. -/
def pdaMarker : List Nat := strBytes ("ProgramDerivedAddress")

/-- ASCII bytes of the seed literal used in `_derive_bonding_curve_accounts`. -/
def bondingCurveSeed : List Nat := strBytes ("bonding-curve")

/-- Candidate address hashed for one bump value:
`hash (seeds ++ [bump] ++ program_id ++ "ProgramDerivedAddress")`.
The digest and the curve-membership test of the identifier scheme are
abstract parameters of the model. -/
def pdaCandidate (hash : List Nat → List Nat) (seeds : List (List Nat))
    (pgm : List Nat) (bump : Nat) : List Nat :=
  hash (seeds.flatten ++ [bump] ++ pgm ++ pdaMarker)

/-- Descending bump search from a starting bump down to 0, returning the
first off-curve candidate with its bump, or `none` once exhausted. -/
def faSearch (hash : List Nat → List Nat) (onCurve : List Nat → Bool)
    (seeds : List (List Nat)) (pgm : List Nat) : Nat → Option (List Nat × Nat)
  | 0 =>
    if onCurve (pdaCandidate hash seeds pgm 0) then none
    else some (pdaCandidate hash seeds pgm 0, 0)
  | b + 1 =>
    if onCurve (pdaCandidate hash seeds pgm (b + 1)) then faSearch hash onCurve seeds pgm b
    else some (pdaCandidate hash seeds pgm (b + 1), b + 1)

/-- Modelled from the spec: `Pubkey.find_program_address` comes from the
solders dependency and is not part of the repository sources; per the
spec it tries a single trailing bump byte from 255 down to 0, hashing
`seeds ++ bump ++ program_identifier ++ "ProgramDerivedAddress"` with the
scheme's native digest, and accepts the first off-curve result, failing
only when every bump is exhausted. -/
def find_program_address (hash : List Nat → List Nat) (onCurve : List Nat → Bool)
    (seeds : List (List Nat)) (pgm : List Nat) : Option (List Nat × Nat) :=
  faSearch hash onCurve seeds pgm 255

/-- The curve-address derivation of `_derive_bonding_curve_accounts`:
`find_program_address` over the seeds `["bonding-curve", mint]` and the
fixed program identifier. -/
def derive_curve_address (hash : List Nat → List Nat) (onCurve : List Nat → Bool)
    (mint : List Nat) : Option (List Nat × Nat) :=
  find_program_address hash onCurve [bondingCurveSeed, mint] PGM_ID

/-- The SPL token program identifier used by the associated-address
convention. -/
def TOKEN_PROGRAM_ID : List Nat :=
  base58Decode32 ("TokenkegQfeZyiNwAJbNbGKPFXCWuBvf9Ss623VQ5DA")

/-- The associated-token-account program identifier. -/
def ASSOCIATED_TOKEN_PROGRAM_ID : List Nat :=
  base58Decode32 ("ATokenGPvbdGVxr1b2hvZbsiqW5xWH25efTNsLJA8knL")

/-- Modelled from the spec: `get_associated_token_address` comes from the
spl dependency and is not part of the repository sources; per the spec it
is the same off-curve search keyed on the fixed associated-account
program identifier and the (owner, token-program, mint) seed triple. -/
def get_associated_token_address (hash : List Nat → List Nat) (onCurve : List Nat → Bool)
    (owner : List Nat) (mint : List Nat) : Option (List Nat × Nat) :=
  find_program_address hash onCurve [owner, TOKEN_PROGRAM_ID, mint] ASSOCIATED_TOKEN_PROGRAM_ID

/-- The claim's formulation of the conventional program-derived-address
algorithm: scan the bump bytes from 255 downward and take the first one
whose candidate hash is off-curve. -/
def pdaFirstOffCurve (hash : List Nat → List Nat) (onCurve : List Nat → Bool)
    (seeds : List (List Nat)) (pgm : List Nat) : Option (List Nat × Nat) :=
  ((List.range 256).reverse.find? (fun b => !onCurve (pdaCandidate hash seeds pgm b))).map
    (fun b => (pdaCandidate hash seeds pgm b, b))

/-- Little-endian 8-byte encoding, used to build concrete test buffers. -/
def encodeU64le (n : Nat) : List Nat :=
  [n % 256, n / 256 % 256, n / 256 ^ 2 % 256, n / 256 ^ 3 % 256,
   n / 256 ^ 4 % 256, n / 256 ^ 5 % 256, n / 256 ^ 6 % 256, n / 256 ^ 7 % 256]

/-- Concrete 81-byte account buffer holding the spec's arithmetic-scenario
reserves: `virtual_token_reserves = 10^15`,
`virtual_sol_reserves = 30_000_000_000`. -/
def scenarioBuf : List Nat :=
  List.replicate 8 0 ++ encodeU64le (10 ^ 15) ++ encodeU64le 30000000000
    ++ encodeU64le 0 ++ encodeU64le 0 ++ encodeU64le 0 ++ [0] ++ List.replicate 32 0

/-- Concrete 81-byte buffer whose flag byte (offset 48) is 2. -/
def flagTwoBuf : List Nat :=
  List.replicate 48 0 ++ [2] ++ List.replicate 32 0

/-- Collaborator oracles for the spec's arithmetic scenario: derivation
succeeds, the account reader returns `scenarioBuf`, the quote is 150. -/
def scenarioCollab : Collab :=
  { deriveResult := some (List.replicate 32 1, List.replicate 32 2)
    fetchResult := some scenarioBuf
    quoteResult := some 150 }

/-- Collaborator oracles for the zero-reserve scenario: the account bytes
are all zero, so the decoded `virtual_token_reserves` is 0. -/
def zeroReserveCollab : Collab :=
  { deriveResult := some (List.replicate 32 1, List.replicate 32 2)
    fetchResult := some (List.replicate 81 0)
    quoteResult := some 150 }

/-- Run in which the address derivation fails. -/
def deriveFailCollab : Collab :=
  { deriveResult := none, fetchResult := none, quoteResult := none }

/-- Run in which derivation succeeds but the curve account is absent. -/
def fetchFailCollab : Collab :=
  { deriveResult := some (List.replicate 32 1, List.replicate 32 2)
    fetchResult := none
    quoteResult := none }

/-- Run in which derivation and fetch succeed but the buffer is too short
to decode. -/
def decodeFailCollab : Collab :=
  { deriveResult := some (List.replicate 32 1, List.replicate 32 2)
    fetchResult := some [0]
    quoteResult := none }

/-- An 81-byte buffer agreeing with `List.replicate 81 0` everywhere
except in the `token_total_supply` bytes (offset 40 holds a 5). -/
def supplyDiffBuf : List Nat :=
  List.replicate 40 0 ++ 5 :: List.replicate 40 0

/-- Fuel-driven floor of the base-2 logarithm (the first argument only
bounds the recursion depth). -/
def nlog2Aux : Nat → Nat → Nat
  | 0, _ => 0
  | fuel + 1, n => if n < 2 then 0 else nlog2Aux fuel (n / 2) + 1

/-- Floor of the base-2 logarithm of a positive natural. -/
def nlog2 (n : Nat) : Nat := nlog2Aux n n

/-- Round the fraction a / b (b > 0) to the nearest integer, breaking
ties towards the even integer, as IEEE-754 round-to-nearest-even does. -/
def roundHalfEven (a b : Nat) : Nat :=
  let q := a / b
  let r2 := 2 * (a % b)
  if r2 < b then q
  else if b < r2 then q + 1
  else if q % 2 = 0 then q else q + 1

/-- Whether the fraction a / b is at least 2 ^ e, as an integer
comparison (e may be negative). -/
def geTwoPow (a b : Nat) (e : Int) : Bool :=
  if 0 ≤ e then decide (b * 2 ^ e.toNat ≤ a) else decide (b ≤ a * 2 ^ (-e).toNat)

/-- Mantissa and exponent of the IEEE binary64 value nearest the positive
fraction a / b (a, b > 0): the result (m, k) stands for m * 2 ^ k with m
obtained by rounding a / b to a multiple of 2 ^ k, ties to even, where
k places 53 significant bits for normal values and is clamped at -1074
in the subnormal range. -/
def mantissaExp (a b : Nat) : Nat × Int :=
  let e0 : Int := (nlog2 a : Int) - (nlog2 b : Int)
  let e : Int := if geTwoPow a b e0 then e0 else e0 - 1
  let k : Int := if e - 52 < -1074 then -1074 else e - 52
  if 0 ≤ k then (roundHalfEven a (b * 2 ^ k.toNat), k)
  else (roundHalfEven (a * 2 ^ (-k).toNat) b, k)

/-- The rational value m * 2 ^ k of the binary64 rounding of the positive
fraction a / b. -/
def roundF64N (a b : Nat) : ℚ :=
  let mk := mantissaExp a b
  if 0 ≤ mk.2 then ((mk.1 * 2 ^ mk.2.toNat : Nat) : ℚ)
  else ((mk.1 : Nat) : ℚ) / ((2 ^ (-mk.2).toNat : Nat) : ℚ)

/-- IEEE-754 binary64 correct rounding (round to nearest, ties to even)
of a rational, through its reduced numerator and denominator; this is the
value CPython produces for each float operation when the exact result of
the operation is this rational.  Overflow beyond the largest finite
double is outside the scope of this model; every value arising in the
claims below lies well inside the normal range. -/
def roundF64 (q : ℚ) : ℚ :=
  if q = 0 then 0
  else if 0 < q then roundF64N q.num.toNat q.den
  else -(roundF64N (-q).num.toNat (-q).den)

/-- The `get_market_cap` of the source with its float arithmetic modelled
at full IEEE binary64 fidelity: the same orchestration and failure
behaviour as `get_market_cap` above, but every Python float operation is
the correctly-rounded double operation — the quote becomes a double at
`float(...)`, the two int/int true divisions round their exact quotient,
the float division and the two float multiplications round their exact
results, and the int `total_supply` is converted to a double before the
final multiplication.  `ZeroDivisionError` is raised exactly when the
double `token_reserve` is zero. -/
def get_market_cap_f64 (mint : List Nat) (c : Collab)
    (total_supply : Nat) (token_decimals : Nat) :
    Except MCError MarketCapData × List Event :=
  match get_bonding_curve_data mint c with
  | (none, tr) => (Except.error MCError.valueError, tr)
  | (some bc_data, tr) =>
    match c.quoteResult with
    | none => (Except.error MCError.quoteError, tr ++ [Event.quoteEv])
    | some price =>
      let sol_usd : ℚ := roundF64 price
      let sol_reserve : ℚ := roundF64 ((bc_data.virtual_sol_reserves : ℚ) / 10 ^ 9)
      let token_reserve : ℚ :=
        roundF64 ((bc_data.virtual_token_reserves : ℚ) / 10 ^ token_decimals)
      if token_reserve = 0 then
        (Except.error MCError.zeroDivisionError, tr ++ [Event.quoteEv])
      else
        (Except.ok
          { token_price_sol := roundF64 (sol_reserve / token_reserve)
            token_price_usd := roundF64 (roundF64 (sol_reserve / token_reserve) * sol_usd)
            market_cap_usd :=
              roundF64 (roundF64 (roundF64 (sol_reserve / token_reserve) * sol_usd)
                * roundF64 (total_supply : ℚ)) },
          tr ++ [Event.quoteEv])

/-- The record decoded from `scenarioBuf`. -/
def vrScenario : CurveRecord :=
  { virtualTokenReserves := 1000000000000000
    virtualSolReserves := 30000000000
    realTokenReserves := 0
    realSolReserves := 0
    tokenTotalSupply := 0
    complete := false
    creator := List.replicate 32 0 }

/-! ## Theorems -/

/-- Reading a u64 field only inspects the eight bytes at its offset. -/
theorem readU64le_congr (b1 b2 : List Nat) (off : Nat)
    (h : ∀ j, j < 8 → b1.getD (off + j) 0 = b2.getD (off + j) 0) :
    readU64le b1 off = readU64le b2 off := by
  have h0 := h 0 (by norm_num)
  have h1 := h 1 (by norm_num)
  have h2 := h 2 (by norm_num)
  have h3 := h 3 (by norm_num)
  have h4 := h 4 (by norm_num)
  have h5 := h 5 (by norm_num)
  have h6 := h 6 (by norm_num)
  have h7 := h 7 (by norm_num)
  rw [Nat.add_zero] at h0
  simp only [readU64le]
  rw [h0, h1, h2, h3, h4, h5, h6, h7]

/-- C2: for every input buffer shorter than 81 bytes (all lengths 0..80),
decoding the curve record fails, returning no record at all — the decode
is all-or-nothing, so no partial record can be produced. -/
theorem decode_short_buffer_fails (b : List Nat) (h : b.length < 81) :
    curve_layout_parse b = none := by
  simp [curve_layout_parse, h]

/-- Witness for C2 at the 80-byte all-zero buffer. -/
theorem decode_short_buffer_fails_witness :
    curve_layout_parse (List.replicate 80 0) = none :=
  decode_short_buffer_fails (List.replicate 80 0) (by decide)

/-- Counterexample to C4: on an 81-byte buffer whose flag byte (offset 48)
is 2 — neither 0 nor 1 — the decode does not fail; construct's `Flag`
coerces the non-zero byte to `true` and a full record is returned. -/
theorem decode_flag_two_succeeds_cex :
    curve_layout_parse flagTwoBuf =
      some { virtualTokenReserves := 0, virtualSolReserves := 0, realTokenReserves := 0,
             realSolReserves := 0, tokenTotalSupply := 0, complete := true,
             creator := List.replicate 32 0 } := by decide

/-- C4 amended: for every buffer of length at least 81, decode succeeds
whatever the flag byte holds, and the decoded `complete` flag is true
exactly when the byte at offset 48 is non-zero (0 decodes to false, any
non-zero value to true); no flag value is rejected. -/
theorem decode_flag_any_byte (b : List Nat) (h : 81 ≤ b.length) :
    ∃ r, curve_layout_parse b = some r ∧ r.complete = (b.getD 48 0 != 0) := by
  have hlt : ¬ b.length < 81 := Nat.not_lt.mpr h
  refine ⟨{ virtualTokenReserves := readU64le b 8, virtualSolReserves := readU64le b 16,
            realTokenReserves := readU64le b 24, realSolReserves := readU64le b 32,
            tokenTotalSupply := readU64le b 40, complete := b.getD 48 0 != 0,
            creator := (b.drop 49).take 32 }, ?_, rfl⟩
  simp [curve_layout_parse, hlt]

/-- Witness for the amended C4 at the flag-byte-2 buffer. -/
theorem decode_flag_any_byte_witness :
    ∃ r, curve_layout_parse flagTwoBuf = some r
      ∧ r.complete = (flagTwoBuf.getD 48 0 != 0) :=
  decode_flag_any_byte flagTwoBuf (by decide)

/-- C8: the two address derivations and the record decode are pure,
deterministic functions of their inputs — in any two runs on identical
inputs each produces identical outputs (the embedding is a total function
with no state and no I/O). -/
theorem derive_decode_deterministic (hash : List Nat → List Nat) (onCurve : List Nat → Bool)
    (m1 m2 o1 o2 n1 n2 b1 b2 : List Nat)
    (hm : m1 = m2) (ho : o1 = o2) (hn : n1 = n2) (hb : b1 = b2) :
    derive_curve_address hash onCurve m1 = derive_curve_address hash onCurve m2
    ∧ get_associated_token_address hash onCurve o1 n1
        = get_associated_token_address hash onCurve o2 n2
    ∧ curve_layout_parse b1 = curve_layout_parse b2 := by
  subst hm; subst ho; subst hn; subst hb
  exact ⟨rfl, rfl, rfl⟩

/-- Witness for C8 at concrete digests, identifiers and buffers. -/
theorem derive_decode_deterministic_witness :
    derive_curve_address (fun l => l.take 32) (fun _ => false) [1]
      = derive_curve_address (fun l => l.take 32) (fun _ => false) [1]
    ∧ get_associated_token_address (fun l => l.take 32) (fun _ => false) [2] [3]
        = get_associated_token_address (fun l => l.take 32) (fun _ => false) [2] [3]
    ∧ curve_layout_parse (List.replicate 81 1) = curve_layout_parse (List.replicate 81 1) :=
  derive_decode_deterministic (fun l => l.take 32) (fun _ => false) [1] [1] [2] [2] [3] [3]
    (List.replicate 81 1) (List.replicate 81 1) rfl rfl rfl rfl

/-- A positive coprime fraction feeds its numerator and denominator
directly into the binary64 rounding. -/
theorem roundF64_ratCast (a b : Nat) (ha : 0 < a) (hb : 0 < b) (hcop : Nat.Coprime a b) :
    roundF64 ((a : ℚ) / (b : ℚ)) = roundF64N a b := by
  have haz : (0 : ℚ) < (a : ℚ) := by exact_mod_cast ha
  have hbz : (0 : ℚ) < (b : ℚ) := by exact_mod_cast hb
  have hpos : 0 < (a : ℚ) / (b : ℚ) := div_pos haz hbz
  have hnum : ((a : ℚ) / (b : ℚ)).num = (a : ℤ) := by
    have h := Rat.num_div_eq_of_coprime (a := (a : ℤ)) (b := (b : ℤ))
      (by exact_mod_cast hb) (by simpa using hcop)
    simpa using h
  have hden : (((a : ℚ) / (b : ℚ)).den : ℤ) = (b : ℤ) := by
    have h := Rat.den_div_eq_of_coprime (a := (a : ℤ)) (b := (b : ℤ))
      (by exact_mod_cast hb) (by simpa using hcop)
    simpa using h
  have hden2 : ((a : ℚ) / (b : ℚ)).den = b := by exact_mod_cast hden
  unfold roundF64
  rw [if_neg hpos.ne', if_pos hpos, hnum, hden2]
  simp

/-- The double quotient 30_000_000_000 / 10^9 is exactly 30. -/
theorem roundF64_solReserve :
    roundF64 (((30000000000 : Nat) : ℚ) / 10 ^ 9) = 30 := by
  have harg : ((30000000000 : Nat) : ℚ) / 10 ^ 9 = ((30 : Nat) : ℚ) / ((1 : Nat) : ℚ) := by
    push_cast
    norm_num
  rw [harg, roundF64_ratCast 30 1 (by norm_num) (by norm_num) (by decide)]
  simp only [roundF64N]
  rw [show mantissaExp 30 1 = (8444249301319680, -48) from by decide]
  norm_num
  rw [show ((48 : Int)).toNat = 48 from rfl]
  norm_num

/-- The double quotient 10^15 / 10^6 is exactly 10^9. -/
theorem roundF64_tokenReserve :
    roundF64 (((1000000000000000 : Nat) : ℚ) / 10 ^ 6) = 1000000000 := by
  have harg : ((1000000000000000 : Nat) : ℚ) / 10 ^ 6
      = ((1000000000 : Nat) : ℚ) / ((1 : Nat) : ℚ) := by
    push_cast
    norm_num
  rw [harg, roundF64_ratCast 1000000000 1 (by norm_num) (by norm_num) (by decide)]
  simp only [roundF64N]
  rw [show mantissaExp 1000000000 1 = (8388608000000000, -23) from by decide]
  norm_num
  rw [show ((23 : Int)).toNat = 23 from rfl]
  norm_num

/-- The double quotient 30 / 10^9: the double nearest 3e-8, whose exact
value is 4533471823554859 * 2^-77. -/
theorem roundF64_priceSol :
    roundF64 ((30 : ℚ) / 1000000000) = 4533471823554859 / 2 ^ 77 := by
  have harg : (30 : ℚ) / 1000000000 = ((3 : Nat) : ℚ) / ((100000000 : Nat) : ℚ) := by
    push_cast
    norm_num
  rw [harg, roundF64_ratCast 3 100000000 (by norm_num) (by norm_num) (by decide)]
  simp only [roundF64N]
  rw [show mantissaExp 3 100000000 = (4533471823554859, -77) from by decide]
  norm_num
  rw [show ((77 : Int)).toNat = 77 from rfl]
  norm_num

/-- The quote 150 is an exactly representable double. -/
theorem roundF64_quote150 : roundF64 (150 : ℚ) = 150 := by
  have harg : (150 : ℚ) = ((150 : Nat) : ℚ) / ((1 : Nat) : ℚ) := by norm_num
  rw [harg, roundF64_ratCast 150 1 (by norm_num) (by norm_num) (by decide)]
  simp only [roundF64N]
  rw [show mantissaExp 150 1 = (5277655813324800, -45) from by decide]
  norm_num
  rw [show ((45 : Int)).toNat = 45 from rfl]
  norm_num

/-- The double product double(3e-8) * 150 rounds DOWN: the result
2656331146614175 * 2^-69 is one ulp below the double nearest 4.5e-6. -/
theorem roundF64_priceUsd :
    roundF64 ((4533471823554859 : ℚ) / 2 ^ 77 * 150) = 2656331146614175 / 2 ^ 69 := by
  have harg : (4533471823554859 : ℚ) / 2 ^ 77 * 150
      = ((340010386766614425 : Nat) : ℚ) / ((2 ^ 76 : Nat) : ℚ) := by
    push_cast
    norm_num
  rw [harg, roundF64_ratCast 340010386766614425 (2 ^ 76) (by norm_num) (by norm_num) (by decide)]
  simp only [roundF64N]
  rw [show mantissaExp 340010386766614425 (2 ^ 76) = (5312662293228350, -70) from by decide]
  norm_num
  rw [show ((70 : Int)).toNat = 70 from rfl]
  norm_num

/-- The int total supply 10^9 converts to an exact double. -/
theorem roundF64_supply1e9 : roundF64 ((1000000000 : Nat) : ℚ) = 1000000000 := by
  have harg : ((1000000000 : Nat) : ℚ) = ((1000000000 : Nat) : ℚ) / ((1 : Nat) : ℚ) := by
    norm_num
  rw [harg, roundF64_ratCast 1000000000 1 (by norm_num) (by norm_num) (by decide)]
  simp only [roundF64N]
  rw [show mantissaExp 1000000000 1 = (8388608000000000, -23) from by decide]
  norm_num
  rw [show ((23 : Int)).toNat = 23 from rfl]
  norm_num

/-- The final double product is 4947802324991999 * 2^-40, which is one
ulp below 4500 (their difference is 2^-40). -/
theorem roundF64_marketCap :
    roundF64 ((2656331146614175 : ℚ) / 2 ^ 69 * 1000000000)
      = 4947802324991999 / 2 ^ 40 := by
  have harg : (2656331146614175 : ℚ) / 2 ^ 69 * 1000000000
      = ((5188146770730810546875 : Nat) : ℚ) / ((2 ^ 60 : Nat) : ℚ) := by
    push_cast
    norm_num
  rw [harg,
    roundF64_ratCast 5188146770730810546875 (2 ^ 60) (by norm_num) (by norm_num) (by decide)]
  simp only [roundF64N]
  rw [show mantissaExp 5188146770730810546875 (2 ^ 60) = (4947802324991999, -40) from by decide]
  norm_num
  rw [show ((40 : Int)).toNat = 40 from rfl]
  norm_num

/-- The double denoted by the literal 4.5e-6 is 5312662293228351 * 2^-70. -/
theorem roundF64_claimedUsd :
    roundF64 ((45 : ℚ) / 10 ^ 7) = 5312662293228351 / 2 ^ 70 := by
  have harg : (45 : ℚ) / 10 ^ 7 = ((9 : Nat) : ℚ) / ((2000000 : Nat) : ℚ) := by
    push_cast
    norm_num
  rw [harg, roundF64_ratCast 9 2000000 (by norm_num) (by norm_num) (by decide)]
  simp only [roundF64N]
  rw [show mantissaExp 9 2000000 = (5312662293228351, -70) from by decide]
  norm_num
  rw [show ((70 : Int)).toNat = 70 from rfl]
  norm_num

/-- Counterexample to C1: at the claim's own scenario the double
arithmetic of the source does not return the claimed values — the
computed fiat price is one ulp below the double 4.5e-6, and the computed
market cap is one ulp below 4500.0 (the base price does equal the double
3e-8). -/
theorem get_market_cap_f64_scenario_cex :
    (get_market_cap_f64 (List.replicate 32 3) scenarioCollab 1000000000 6).1
      = Except.ok { token_price_sol := 4533471823554859 / 2 ^ 77,
                    token_price_usd := 2656331146614175 / 2 ^ 69,
                    market_cap_usd := 4947802324991999 / 2 ^ 40 }
    ∧ (2656331146614175 : ℚ) / 2 ^ 69 ≠ roundF64 ((45 : ℚ) / 10 ^ 7)
    ∧ (4947802324991999 : ℚ) / 2 ^ 40 ≠ (4500 : ℚ) := by
  refine ⟨?_, ?_, ?_⟩
  · have hp : curve_layout_parse scenarioBuf = some vrScenario := by decide
    have htr : roundF64 (((1000000000000000 : Nat) : ℚ) / 10 ^ 6) ≠ 0 := by
      rw [roundF64_tokenReserve]
      norm_num
    simp only [get_market_cap_f64, get_bonding_curve_data, scenarioCollab, hp, vrScenario]
    rw [if_neg htr]
    rw [roundF64_solReserve, roundF64_tokenReserve, roundF64_priceSol, roundF64_quote150,
        roundF64_priceUsd, roundF64_supply1e9, roundF64_marketCap]
  · rw [roundF64_claimedUsd]
    norm_num
  · norm_num

/-- C1 amended: for every decoded record with reserves `vsr` and `vtr`,
every fiat quote `q`, total supply `s` and token decimals `d` (with the
rounded token reserve non-zero so the division is defined),
`get_market_cap` returns the triple computed with every float operation
correctly rounded to IEEE binary64: `sol_reserve = fl(vsr / 10^9)`,
`token_reserve = fl(vtr / 10^d)`,
`token_price_base = fl(sol_reserve / token_reserve)`,
`token_price_fiat = fl(token_price_base * fl(q))`,
`market_cap_fiat = fl(token_price_fiat * fl(s))`; at the spec's scenario
this yields the double 3e-8 for the base price but 4.499999999999999e-6,
one ulp below the double 4.5e-6, for the fiat price, and
4499.999999999999, one ulp below 4500, for the market cap. -/
theorem get_market_cap_f64_formula (mint : List Nat) (c : Collab)
    (bc atoken buf : List Nat) (vr : CurveRecord) (q : ℚ) (s d : Nat)
    (hder : c.deriveResult = some (bc, atoken))
    (hfetch : c.fetchResult = some buf)
    (hparse : curve_layout_parse buf = some vr)
    (hq : c.quoteResult = some q)
    (htr : roundF64 ((vr.virtualTokenReserves : ℚ) / 10 ^ d) ≠ 0) :
    (get_market_cap_f64 mint c s d).1 =
      Except.ok
        { token_price_sol :=
            roundF64 (roundF64 ((vr.virtualSolReserves : ℚ) / 10 ^ 9)
              / roundF64 ((vr.virtualTokenReserves : ℚ) / 10 ^ d))
          token_price_usd :=
            roundF64 (roundF64 (roundF64 ((vr.virtualSolReserves : ℚ) / 10 ^ 9)
              / roundF64 ((vr.virtualTokenReserves : ℚ) / 10 ^ d)) * roundF64 q)
          market_cap_usd :=
            roundF64 (roundF64 (roundF64 (roundF64 ((vr.virtualSolReserves : ℚ) / 10 ^ 9)
              / roundF64 ((vr.virtualTokenReserves : ℚ) / 10 ^ d)) * roundF64 q)
              * roundF64 (s : ℚ)) } := by
  simp [get_market_cap_f64, get_bonding_curve_data, hder, hfetch, hparse, hq, htr]

/-- Witness for the amended C1 at the spec's arithmetic scenario: the
exact doubles produced are 4533471823554859 * 2^-77 (the double 3e-8),
2656331146614175 * 2^-69 (one ulp below 4.5e-6) and
4947802324991999 * 2^-40 (one ulp below 4500). -/
theorem get_market_cap_f64_formula_witness :
    (get_market_cap_f64 (List.replicate 32 3) scenarioCollab 1000000000 6).1
      = Except.ok { token_price_sol := 4533471823554859 / 2 ^ 77,
                    token_price_usd := 2656331146614175 / 2 ^ 69,
                    market_cap_usd := 4947802324991999 / 2 ^ 40 } := by
  have htr : roundF64 ((vrScenario.virtualTokenReserves : ℚ) / 10 ^ 6) ≠ 0 := by
    simp only [vrScenario]
    rw [roundF64_tokenReserve]
    norm_num
  rw [get_market_cap_f64_formula (List.replicate 32 3) scenarioCollab (List.replicate 32 1)
      (List.replicate 32 2) scenarioBuf vrScenario 150 1000000000 6 rfl rfl (by decide) rfl htr]
  simp only [vrScenario]
  rw [roundF64_solReserve, roundF64_tokenReserve, roundF64_priceSol, roundF64_quote150,
      roundF64_priceUsd, roundF64_supply1e9, roundF64_marketCap]

/-- C3: for every decoded record with `virtual_token_reserves = 0`,
`get_market_cap` fails with the zero-division arithmetic error (Python's
`ZeroDivisionError`, a subclass of `ArithmeticError`) instead of
returning a result, so no infinity or NaN can be produced. -/
theorem get_market_cap_zero_token_reserve (mint : List Nat) (c : Collab)
    (bc atoken buf : List Nat) (vr : CurveRecord) (q : ℚ) (s d : Nat)
    (hder : c.deriveResult = some (bc, atoken))
    (hfetch : c.fetchResult = some buf)
    (hparse : curve_layout_parse buf = some vr)
    (hq : c.quoteResult = some q)
    (hvtr : vr.virtualTokenReserves = 0) :
    (get_market_cap mint c s d).1 = Except.error MCError.zeroDivisionError := by
  simp [get_market_cap, get_bonding_curve_data, hder, hfetch, hparse, hq, hvtr]

/-- Witness for C3 at the all-zero account buffer. -/
theorem get_market_cap_zero_token_reserve_witness :
    (get_market_cap (List.replicate 32 3) zeroReserveCollab 1000000000 6).1
      = Except.error MCError.zeroDivisionError :=
  get_market_cap_zero_token_reserve (List.replicate 32 3) zeroReserveCollab
    (List.replicate 32 1) (List.replicate 32 2) (List.replicate 81 0)
    { virtualTokenReserves := 0, virtualSolReserves := 0, realTokenReserves := 0,
      realSolReserves := 0, tokenTotalSupply := 0, complete := false,
      creator := List.replicate 32 0 }
    150 1000000000 6 rfl rfl (by decide) rfl rfl

/-- The descending bump search agrees, for every starting bump, with
taking the first off-curve bump in the descending enumeration. -/
theorem faSearch_eq_firstOffCurve (hash : List Nat → List Nat) (onCurve : List Nat → Bool)
    (seeds : List (List Nat)) (pgm : List Nat) (n : Nat) :
    faSearch hash onCurve seeds pgm n
      = (((List.range (n + 1)).reverse.find?
            (fun b => !onCurve (pdaCandidate hash seeds pgm b))).map
          (fun b => (pdaCandidate hash seeds pgm b, b))) := by
  induction n with
  | zero =>
    by_cases h : onCurve (pdaCandidate hash seeds pgm 0) <;>
      simp [faSearch, h, List.range_succ]
  | succ n ih =>
    by_cases h : onCurve (pdaCandidate hash seeds pgm (n + 1)) <;>
      simp [faSearch, h, List.range_succ, List.find?_cons, ih]

/-- The descending bump search is exhausted exactly when every bump in the
scanned range hashes onto the curve. -/
theorem faSearch_eq_none_iff (hash : List Nat → List Nat) (onCurve : List Nat → Bool)
    (seeds : List (List Nat)) (pgm : List Nat) (n : Nat) :
    faSearch hash onCurve seeds pgm n = none
      ↔ ∀ b, b ≤ n → onCurve (pdaCandidate hash seeds pgm b) = true := by
  induction n with
  | zero =>
    by_cases h : onCurve (pdaCandidate hash seeds pgm 0)
    · simp only [faSearch, h, if_true]
      constructor
      · intro _ b hb
        have hb0 : b = 0 := Nat.le_zero.mp hb
        rw [hb0]; exact h
      · intro _; trivial
    · simp only [faSearch, h, if_false]
      constructor
      · intro hcontra; exact absurd hcontra (by simp)
      · intro hall; exact absurd (hall 0 le_rfl) (by simp [h])
  | succ n ih =>
    by_cases h : onCurve (pdaCandidate hash seeds pgm (n + 1))
    · simp only [faSearch, h, if_true, ih]
      constructor
      · intro hall b hb
        rcases Nat.lt_or_ge b (n + 1) with hlt | hge
        · exact hall b (Nat.lt_succ_iff.mp hlt)
        · have hb1 : b = n + 1 := le_antisymm hb hge
          rw [hb1]; exact h
      · intro hall b hb; exact hall b (le_trans hb (Nat.le_succ n))
    · simp only [faSearch, h, if_false]
      constructor
      · intro hcontra; exact absurd hcontra (by simp)
      · intro hall; exact absurd (hall (n + 1) le_rfl) (by simp [h])

/-- C7: `derive_curve_address` coincides with the conventional
program-derived-address algorithm over the seeds
`["bonding-curve", mint]` and the fixed program identifier — the first
off-curve candidate in the descending bump scan — and it fails exactly
when every bump from 255 down to 0 hashes onto the curve. -/
theorem derive_curve_address_spec (hash : List Nat → List Nat) (onCurve : List Nat → Bool)
    (mint : List Nat) :
    derive_curve_address hash onCurve mint
      = pdaFirstOffCurve hash onCurve [bondingCurveSeed, mint] PGM_ID
    ∧ (derive_curve_address hash onCurve mint = none
        ↔ ∀ b, b ≤ 255 →
            onCurve (pdaCandidate hash [bondingCurveSeed, mint] PGM_ID b) = true) := by
  constructor
  · have hfd := faSearch_eq_firstOffCurve hash onCurve [bondingCurveSeed, mint] PGM_ID 255
    simpa [derive_curve_address, find_program_address, pdaFirstOffCurve] using hfd
  · have hni := faSearch_eq_none_iff hash onCurve [bondingCurveSeed, mint] PGM_ID 255
    simpa [derive_curve_address, find_program_address] using hni

/-- Counterexample to C5: a derivation failure and a decode failure
surface as the very same untagged `ValueError`, so the surfaced error
does not identify its originating stage. -/
theorem stage_tag_missing_cex :
    (get_market_cap [] deriveFailCollab 1000000000 6).1 = Except.error MCError.valueError
    ∧ (get_market_cap [] decodeFailCollab 1000000000 6).1 = Except.error MCError.valueError :=
  ⟨rfl, rfl⟩

/-- C5 amended: every failure of `get_market_cap` is surfaced as an
explicit terminal error — success occurs exactly when derivation, fetch,
decode, quote and the reserve division all succeed, so no failure is ever
swallowed into a default result — and no stage is ever invoked twice
(no retries); but derivation, fetch and decode failures are all collapsed
into the single untagged `ValueError` instead of stage-tagged errors,
while only the quote failure and the zero-reserve division keep their own
exception kinds. -/
theorem failures_surfaced_no_retry (mint : List Nat) (c : Collab) (s d : Nat) :
    (get_market_cap mint c s d).2.Nodup
    ∧ ((∃ v, (get_market_cap mint c s d).1 = Except.ok v)
        ↔ ∃ a buf vr q, c.deriveResult = some a ∧ c.fetchResult = some buf
            ∧ curve_layout_parse buf = some vr ∧ c.quoteResult = some q
            ∧ vr.virtualTokenReserves ≠ 0) := by
  obtain ⟨der, fetch, quote⟩ := c
  cases der with
  | none => simp [get_market_cap, get_bonding_curve_data]
  | some a =>
    obtain ⟨bc, atoken⟩ := a
    cases fetch with
    | none => simp [get_market_cap, get_bonding_curve_data]
    | some buf =>
      cases hp : curve_layout_parse buf with
      | none => simp [get_market_cap, get_bonding_curve_data, hp]
      | some vr =>
        cases quote with
        | none => simp [get_market_cap, get_bonding_curve_data, hp]
        | some q0 =>
          by_cases hz : vr.virtualTokenReserves = 0
          · simp [get_market_cap, get_bonding_curve_data, hp, hz]
          · have htr : ((vr.virtualTokenReserves : ℚ) / 10 ^ d) ≠ 0 :=
              div_ne_zero (Nat.cast_ne_zero.mpr hz) (pow_ne_zero _ (by norm_num))
            simp [get_market_cap, get_bonding_curve_data, hp, htr, hz]

/-- Counterexample to C6: the error produced when the account reader
reports the curve account absent is identical to the error produced when
the address derivation fails, so it cannot be an error tagged with the
fetch stage. -/
theorem fetch_error_untagged_cex :
    (get_market_cap [] fetchFailCollab 1000000000 6).1
      = (get_market_cap [] deriveFailCollab 1000000000 6).1 := rfl

/-- C6 amended: whenever the account reader reports the curve account
absent or unreadable, `get_market_cap` fails — with the same untagged
`ValueError` as any derivation or decode failure — and in that run
neither the record decode nor the fiat quote reader is invoked. -/
theorem fetch_failure_no_decode_no_quote (mint : List Nat) (c : Collab) (s d : Nat)
    (a : List Nat × List Nat)
    (hder : c.deriveResult = some a) (hfetch : c.fetchResult = none) :
    (get_market_cap mint c s d).1 = Except.error MCError.valueError
    ∧ Event.decodeEv ∉ (get_market_cap mint c s d).2
    ∧ Event.quoteEv ∉ (get_market_cap mint c s d).2 := by
  obtain ⟨a1, a2⟩ := a
  refine ⟨?_, ?_, ?_⟩ <;> simp [get_market_cap, get_bonding_curve_data, hder, hfetch]

/-- Witness for the amended C6 at the absent-account run. -/
theorem fetch_failure_no_decode_no_quote_witness :
    (get_market_cap [] fetchFailCollab 1000000000 6).1 = Except.error MCError.valueError
    ∧ Event.decodeEv ∉ (get_market_cap [] fetchFailCollab 1000000000 6).2
    ∧ Event.quoteEv ∉ (get_market_cap [] fetchFailCollab 1000000000 6).2 :=
  fetch_failure_no_decode_no_quote [] fetchFailCollab 1000000000 6
    (List.replicate 32 1, List.replicate 32 2) rfl rfl

/-- The market-cap outcome only looks at the option structure of the run
and at the two virtual-reserve fields of the decoded record. -/
theorem get_market_cap_fst_congr (mint : List Nat) (der : Option (List Nat × List Nat))
    (q : Option ℚ) (b1 b2 : List Nat) (s d : Nat) (r1 r2 : CurveRecord)
    (hp1 : curve_layout_parse b1 = some r1) (hp2 : curve_layout_parse b2 = some r2)
    (hvt : r1.virtualTokenReserves = r2.virtualTokenReserves)
    (hvs : r1.virtualSolReserves = r2.virtualSolReserves) :
    (get_market_cap mint ⟨der, some b1, q⟩ s d).1
      = (get_market_cap mint ⟨der, some b2, q⟩ s d).1 := by
  cases der with
  | none => rfl
  | some a =>
    obtain ⟨bc, atoken⟩ := a
    cases q with
    | none => simp [get_market_cap, get_bonding_curve_data, hp1, hp2]
    | some q0 => simp [get_market_cap, get_bonding_curve_data, hp1, hp2, hvt, hvs]

/-- C9: the market-cap result never depends on the decoded
`token_total_supply` field — for any two account buffers of equal length
agreeing everywhere outside the bytes at offsets 40..47, with the same
derivation outcome, fiat quote, total-supply and decimals arguments,
`get_market_cap` produces identical results; only the caller-supplied
total-supply parameter enters the market cap. -/
theorem market_cap_ignores_supply_field (mint : List Nat)
    (der : Option (List Nat × List Nat)) (q : Option ℚ) (b1 b2 : List Nat) (s d : Nat)
    (hlen : b1.length = b2.length)
    (hagree : ∀ i, i < 40 ∨ 48 ≤ i → b1.getD i 0 = b2.getD i 0) :
    (get_market_cap mint ⟨der, some b1, q⟩ s d).1
      = (get_market_cap mint ⟨der, some b2, q⟩ s d).1 := by
  have hv8 : readU64le b1 8 = readU64le b2 8 :=
    readU64le_congr b1 b2 8 (fun j hj => hagree (8 + j) (Or.inl (by omega)))
  have hv16 : readU64le b1 16 = readU64le b2 16 :=
    readU64le_congr b1 b2 16 (fun j hj => hagree (16 + j) (Or.inl (by omega)))
  by_cases hlt : b1.length < 81
  · have hlt2 : b2.length < 81 := by omega
    cases der with
    | none => rfl
    | some a =>
      obtain ⟨bc, atoken⟩ := a
      simp [get_market_cap, get_bonding_curve_data, curve_layout_parse, hlt, hlt2]
  · have hlt2 : ¬ b2.length < 81 := by omega
    have hp1 : curve_layout_parse b1 =
        some { virtualTokenReserves := readU64le b1 8, virtualSolReserves := readU64le b1 16,
               realTokenReserves := readU64le b1 24, realSolReserves := readU64le b1 32,
               tokenTotalSupply := readU64le b1 40, complete := b1.getD 48 0 != 0,
               creator := (b1.drop 49).take 32 } := by
      simp [curve_layout_parse, hlt]
    have hp2 : curve_layout_parse b2 =
        some { virtualTokenReserves := readU64le b2 8, virtualSolReserves := readU64le b2 16,
               realTokenReserves := readU64le b2 24, realSolReserves := readU64le b2 32,
               tokenTotalSupply := readU64le b2 40, complete := b2.getD 48 0 != 0,
               creator := (b2.drop 49).take 32 } := by
      simp [curve_layout_parse, hlt2]
    exact get_market_cap_fst_congr mint der q b1 b2 s d _ _ hp1 hp2 hv8 hv16

/-- Every entry of an all-zero list reads as zero. -/
theorem getD_replicate_zero (n i : Nat) : (List.replicate n 0).getD i 0 = 0 := by
  rcases Nat.lt_or_ge i n with h | h
  · rw [List.getD_eq_getElem _ _ (by simpa using h)]
    simp
  · exact List.getD_eq_default _ _ (by simpa using h)

/-- Away from offset 40, `supplyDiffBuf` reads as zero. -/
theorem supplyDiffBuf_getD (i : Nat) (h : i ≠ 40) : supplyDiffBuf.getD i 0 = 0 := by
  unfold supplyDiffBuf
  rcases Nat.lt_or_ge i 40 with h1 | h1
  · rw [List.getD_append _ _ _ _ (by simpa using h1)]
    exact getD_replicate_zero 40 i
  · rw [List.getD_append_right _ _ _ _ (by simpa using h1)]
    have h2 : i - (List.replicate 40 (0 : Nat)).length ≠ 0 := by
      simp only [List.length_replicate]; omega
    obtain ⟨j, hj⟩ := Nat.exists_eq_succ_of_ne_zero h2
    rw [hj, List.getD_cons_succ]
    exact getD_replicate_zero 40 j

/-- Witness for C9: the all-zero 81-byte buffer against the buffer whose
only difference is a 5 in the `token_total_supply` bytes. -/
theorem market_cap_ignores_supply_field_witness :
    (get_market_cap [] ⟨some ([], []), some (List.replicate 81 0), some 150⟩ 1000000000 6).1
      = (get_market_cap [] ⟨some ([], []), some supplyDiffBuf, some 150⟩ 1000000000 6).1 := by
  refine market_cap_ignores_supply_field [] (some ([], [])) (some 150)
    (List.replicate 81 0) supplyDiffBuf 1000000000 6 (by decide) ?_
  intro i hi
  have hne : i ≠ 40 := by omega
  rw [getD_replicate_zero 81 i, supplyDiffBuf_getD i hne]

/-- C10: the decode consumes only the first 81 bytes — appending any
suffix to a buffer of length at least 81 leaves the decode result (and
its success) unchanged, so trailing bytes are ignored, not rejected. -/
theorem decode_ignores_trailing (b s : List Nat) (h : 81 ≤ b.length) :
    curve_layout_parse (b ++ s) = curve_layout_parse b := by
  have hlen : ¬ (b ++ s).length < 81 := by
    simp only [List.length_append]; omega
  have hb : ¬ b.length < 81 := by omega
  have h8 := readU64le_congr (b ++ s) b 8
    (fun j hj => List.getD_append b s 0 (8 + j) (by omega))
  have h16 := readU64le_congr (b ++ s) b 16
    (fun j hj => List.getD_append b s 0 (16 + j) (by omega))
  have h24 := readU64le_congr (b ++ s) b 24
    (fun j hj => List.getD_append b s 0 (24 + j) (by omega))
  have h32 := readU64le_congr (b ++ s) b 32
    (fun j hj => List.getD_append b s 0 (32 + j) (by omega))
  have h40 := readU64le_congr (b ++ s) b 40
    (fun j hj => List.getD_append b s 0 (40 + j) (by omega))
  have h48 : (b ++ s).getD 48 0 = b.getD 48 0 :=
    List.getD_append b s 0 48 (by omega)
  have hdrop : (b ++ s).drop 49 = b.drop 49 ++ s := by
    rw [List.drop_append_eq_append_drop]
    have h49 : 49 - b.length = 0 := by omega
    rw [h49, List.drop_zero]
  have htake : (b.drop 49 ++ s).take 32 = (b.drop 49).take 32 := by
    rw [List.take_append_eq_append_take]
    have h32d : 32 - (b.drop 49).length = 0 := by
      simp only [List.length_drop]; omega
    rw [h32d, List.take_zero, List.append_nil]
  unfold curve_layout_parse
  rw [if_neg hlen, if_neg hb, h8, h16, h24, h32, h40, h48, hdrop, htake]

/-- Witness for C10: the 81-byte zero buffer with one trailing byte. -/
theorem decode_ignores_trailing_witness :
    curve_layout_parse (List.replicate 81 0 ++ [7])
      = curve_layout_parse (List.replicate 81 0) :=
  decode_ignores_trailing (List.replicate 81 0) [7] (by decide)

end PumpFunMC
